import Mathlib

/-!
# Verification of the letllm-go normalization-and-streaming pipeline

A shallow embedding, in Lean 4, of the core of the `letllm-go` gateway:
the vendor-neutral data model and its validation
(`internal/provider/models.go`, `internal/provider/transformer.go`),
capability merging (`MergeCapabilities`), the registry's routing decision
(`Registry.Route`, `Registry.GetProviderForModel`), the Gemini adapter's
message conversion and finish-reason mapping (`internal/provider/gemini.go`),
the OpenAI adapter's response transformation, and the concurrent streaming
relay of `RegisterRoutes` (the reader goroutine, the capacity-8 hand-off
channel, the single-slot error channel, and the sender select loop),
modelled as a labelled transition system.

Go machine integers are embedded as `Int`, Go `float64` parameters as `Rat`
(the validation code only compares them against small integer bounds),
Go strings as `String`, channels as explicit queue/slot/closed-flag state,
and fallible Go functions as `Except String`.
-/

/-- Structure `FunctionCall` from `models.go`: a function call in a message. -/
structure FunctionCall where
  name : String
  arguments : String
deriving DecidableEq, Repr

/-- Structure `Message` from `models.go`: a chat message.  The `Metadata` map is an
opaque payload unused by every operation modelled here and is omitted. -/
structure Message where
  role : String
  content : String
  name : Option String := none
  functionCall : Option FunctionCall := none
deriving DecidableEq, Repr

/-- Structure `StandardRequest` from `models.go`.  `Functions` and `Metadata` are
unused by the validation and conversion code modelled here and omitted. -/
structure StandardRequest where
  model : String
  messages : List Message
  stream : Bool := false
  maxTokens : Option Int := none
  temperature : Option Rat := none
  topP : Option Rat := none
deriving DecidableEq, Repr

/-- Structure `Choice` from `models.go`: a completion choice. -/
structure Choice where
  index : Int
  message : Option Message := none
  delta : Option Message := none
  finishReason : Option String := none
deriving DecidableEq, Repr

/-- Structure `Usage` from `models.go`: token usage information. -/
structure Usage where
  promptTokens : Int
  completionTokens : Int
  totalTokens : Int
deriving DecidableEq, Repr

/-- Structure `ProviderCapabilities` from `models.go`. -/
structure ProviderCapabilities where
  supportsStreaming : Bool
  supportsFunctions : Bool
  supportsSystemRole : Bool
  maxTokens : Int
  maxContextLength : Int
  supportedModels : List String
  supportedParameters : List String
deriving DecidableEq, Repr

/-- Role constant `RoleSystem = "system"` from `models.go`. -/
def RoleSystem : String := "system"

/-- Role constant `RoleUser = "user"` from `models.go`. -/
def RoleUser : String := "user"

/-- Role constant `RoleAssistant = "assistant"` from `models.go`. -/
def RoleAssistant : String := "assistant"

/-- Role constant `RoleFunction = "function"` from `models.go`. -/
def RoleFunction : String := "function"

/-- Finish-reason constant `FinishReasonStop = "stop"` from `models.go`. -/
def FinishReasonStop : String := "stop"

/-- Finish-reason constant `FinishReasonLength = "length"` from `models.go`. -/
def FinishReasonLength : String := "length"

/-- Finish-reason constant `FinishReasonFunctionCall = "function_call"`. -/
def FinishReasonFunctionCall : String := "function_call"

/-- Finish-reason constant `FinishReasonContentFilter = "content_filter"`. -/
def FinishReasonContentFilter : String := "content_filter"

/-- The shared finish-reason vocabulary of the spec:
{stop, length, function_call, content_filter}. -/
def finishReasonVocabulary : List String :=
  [FinishReasonStop, FinishReasonLength, FinishReasonFunctionCall,
   FinishReasonContentFilter]

/-- Per-message validation extracted from the loop body of
`ValidateStandardRequest` (`transformer.go` lines 60-76): empty role,
then empty content with no function call, then the role switch. -/
def validateMessage (i : Nat) (msg : Message) : Except String Unit :=
  if msg.role = "" then
    .error ("message " ++ toString i ++ ": role is required")
  else if msg.content = "" ∧ msg.functionCall = none then
    .error ("message " ++ toString i ++ ": content or function_call is required")
  else if msg.role = RoleSystem ∨ msg.role = RoleUser ∨
      msg.role = RoleAssistant ∨ msg.role = RoleFunction then
    .ok ()
  else
    .error ("message " ++ toString i ++ ": invalid role " ++ msg.role)

/-- The message loop of `ValidateStandardRequest`, indexed from `i`. -/
def validateMessages (i : Nat) : List Message → Except String Unit
  | [] => .ok ()
  | msg :: rest =>
    match validateMessage i msg with
    | .error e => .error e
    | .ok _ => validateMessages (i + 1) rest

/-- Go's `*req.Temperature < 0 || *req.Temperature > 2` guard
(`transformer.go` line 79), `false` when the field is absent. -/
def temperatureOutOfRange (t : Option Rat) : Bool :=
  match t with
  | some v => decide (v < 0) || decide (v > 2)
  | none => false

/-- Go's `*req.TopP < 0 || *req.TopP > 1` guard (`transformer.go` line 83). -/
def topPOutOfRange (p : Option Rat) : Bool :=
  match p with
  | some v => decide (v < 0) || decide (v > 1)
  | none => false

/-- Go's `*req.MaxTokens <= 0` guard (`transformer.go` line 87). -/
def maxTokensInvalid (n : Option Int) : Bool :=
  match n with
  | some v => decide (v ≤ 0)
  | none => false

/-- Function `ValidateStandardRequest` from `transformer.go` lines 46-92.  The Go
`req == nil` case does not arise in the embedding (requests are values). -/
def ValidateStandardRequest (req : StandardRequest) : Except String Unit :=
  if req.model = "" then
    .error "model is required"
  else if req.messages.length = 0 then
    .error "at least one message is required"
  else
    match validateMessages 0 req.messages with
    | .error e => .error e
    | .ok _ =>
      if temperatureOutOfRange req.temperature then
        .error "temperature must be between 0 and 2"
      else if topPOutOfRange req.topP then
        .error "top_p must be between 0 and 1"
      else if maxTokensInvalid req.maxTokens then
        .error "max_tokens must be positive"
      else
        .ok ()

/-- The documented per-message constraint of the spec (§4.1): the role is
one of the four enumerated values and the content is non-empty or a
function call is present.  (An empty role is excluded by the role
enumeration: `""` is none of the four values.) -/
def MessageOk (m : Message) : Prop :=
  (m.role = RoleSystem ∨ m.role = RoleUser ∨
    m.role = RoleAssistant ∨ m.role = RoleFunction) ∧
  (m.content ≠ "" ∨ m.functionCall ≠ none)

/-- The documented request constraints of the spec (§4.1): non-empty model,
non-empty message list, every message well formed, temperature in [0, 2]
when present, top-p in [0, 1] when present, max-tokens positive when
present. -/
def RequestOk (req : StandardRequest) : Prop :=
  req.model ≠ "" ∧ req.messages ≠ [] ∧
  (∀ m ∈ req.messages, MessageOk m) ∧
  (∀ t ∈ req.temperature, 0 ≤ t ∧ t ≤ 2) ∧
  (∀ p ∈ req.topP, 0 ≤ p ∧ p ≤ 1) ∧
  (∀ n ∈ req.maxTokens, 0 < n)

/-- A routing rule from `config.go`: `{prefix, provider}`.  The prefix
field is named `pat` here. -/
structure RouteRule where
  pat : String
  provider : String
deriving DecidableEq, Repr

/-- Routing errors of the registry (`registry.go`):
`provider %s not configured` and `no provider matched model %q`. -/
inductive RouteError where
  | providerNotConfigured (name : String)
  | noProviderForModel (model : String)
deriving DecidableEq, Repr

/-- Go `strings.HasPrefix s pat`, via the character lists. -/
def strStartsWith (s pat : String) : Bool :=
  pat.data.isPrefixOf s.data

/-- Go `strings.HasSuffix s pat`, via the character lists. -/
def strEndsWith (s pat : String) : Bool :=
  pat.data.isSuffixOf s.data

/-- Whether `pat` occurs as a contiguous sublist of `l`. -/
def charsContain (l pat : List Char) : Bool :=
  match l with
  | [] => pat.isEmpty
  | _ :: rest => pat.isPrefixOf l || charsContain rest pat

/-- Go `strings.Contains s pat`, via the character lists. -/
def strContains (s pat : String) : Bool :=
  charsContain s.data pat.data

/-- The OpenAI vendor-token test of `Registry.GetProviderForModel`
(`registry.go`): prefix `gpt-` or `gpt4`, substring `gpt`, suffix
`-openai`, or substring `openai`. -/
def gptHint (model : String) : Bool :=
  strStartsWith model "gpt-" || strStartsWith model "gpt4" ||
    strContains model "gpt" || strEndsWith model "-openai" ||
    strContains model "openai"

/-- The Gemini vendor-token test of `Registry.GetProviderForModel`
(`registry.go`): prefix `gemini-`, substring `gemini`, or suffix
`-gemini`. -/
def geminiHint (model : String) : Bool :=
  strStartsWith model "gemini-" || strContains model "gemini" ||
    strEndsWith model "-gemini"

/-- Method `Registry.GetProviderForModel` (`registry.go` lines 254-280).  The
registry's provider map is embedded as the list of registered provider
names; a returned provider is identified by its name.  The Go code falls
from an unregistered OpenAI hint through to the Gemini hint, which the
if-chain reproduces. -/
def GetProviderForModel (registered : List String) (model : String) :
    Except RouteError String :=
  if gptHint model = true ∧ "openai" ∈ registered then
    .ok "openai"
  else if geminiHint model = true ∧ "gemini" ∈ registered then
    .ok "gemini"
  else
    .error (.noProviderForModel model)

/-- Method `Registry.Route` (`registry.go` lines 235-251): scan the configured
rules in order; on the first matching prefix return the named provider or
fail with `providerNotConfigured`; with no matching rule fall back to
`GetProviderForModel`. -/
def Route (rules : List RouteRule) (registered : List String)
    (model : String) : Except RouteError String :=
  match rules with
  | [] => GetProviderForModel registered model
  | r :: rest =>
    if strStartsWith model r.pat then
      if r.provider ∈ registered then .ok r.provider
      else .error (.providerNotConfigured r.provider)
    else Route rest registered model

/-- The first rule whose prefix matches the model, mirroring the scan
order of `Registry.Route`. -/
def firstMatchingRule (rules : List RouteRule) (model : String) :
    Option RouteRule :=
  rules.find? (fun r => strStartsWith model r.pat)

/-- One step of `mergeStringSlices` (`transformer.go` lines 152-172): the
`seen` map is exactly membership in the accumulated result. -/
def addUnique (acc : List String) (s : String) : List String :=
  if s ∈ acc then acc else acc ++ [s]

/-- Function `mergeStringSlices` from `transformer.go`: walk `slice1` then
`slice2`, appending elements not seen before. -/
def mergeStringSlices (slice1 slice2 : List String) : List String :=
  slice2.foldl addUnique (slice1.foldl addUnique [])

/-- The two-capability merge step from the loop body of
`MergeCapabilities` (`transformer.go` lines 128-147). -/
def mergeTwoCapabilities (merged cap : ProviderCapabilities) :
    ProviderCapabilities :=
  { supportsStreaming := merged.supportsStreaming || cap.supportsStreaming
    supportsFunctions := merged.supportsFunctions || cap.supportsFunctions
    supportsSystemRole := merged.supportsSystemRole || cap.supportsSystemRole
    maxTokens :=
      if merged.maxTokens < cap.maxTokens then cap.maxTokens
      else merged.maxTokens
    maxContextLength :=
      if merged.maxContextLength < cap.maxContextLength then
        cap.maxContextLength
      else merged.maxContextLength
    supportedModels :=
      mergeStringSlices merged.supportedModels cap.supportedModels
    supportedParameters :=
      mergeStringSlices merged.supportedParameters cap.supportedParameters }

/-- The all-fields-empty `ProviderCapabilities{}` value returned by
`MergeCapabilities` on an empty argument list. -/
def emptyCapabilities : ProviderCapabilities :=
  { supportsStreaming := false
    supportsFunctions := false
    supportsSystemRole := false
    maxTokens := 0
    maxContextLength := 0
    supportedModels := []
    supportedParameters := [] }

/-- Function `MergeCapabilities` from `transformer.go` lines 121-150: start from
the first capability set and fold the merge step over the rest. -/
def MergeCapabilities : List ProviderCapabilities → ProviderCapabilities
  | [] => emptyCapabilities
  | c :: rest => rest.foldl mergeTwoCapabilities c

/-- Modelled from the spec (§4.1): list union "with de-duplication,
preserving first-seen order" — keep the first occurrence of each element
and delete the later ones.  Compared against `mergeStringSlices`. -/
def dedupFirst : List String → List String
  | [] => []
  | x :: xs => x :: dedupFirst (xs.filter (fun y => decide (y ≠ x)))
termination_by l => l.length
decreasing_by
  simp only [List.length_cons]
  exact Nat.lt_succ_of_le (List.length_filter_le _ _)

/-- The `genai.FinishReason` enumeration of the Gemini SDK (external
collaborator): Unspecified = 0, Stop = 1, MaxTokens = 2, Safety = 3,
Recitation = 4, Other = 5. -/
inductive GenaiFinishReason where
  | unspecified
  | stop
  | maxTokens
  | safety
  | recitation
  | other
deriving DecidableEq, Repr

/-- Method `GeminiProvider.mapFinishReason` (`gemini.go` lines 330-341): a switch
over `FinishReasonStop`, `FinishReasonMaxTokens`, `FinishReasonSafety`
with default `"unknown"`. -/
def mapFinishReason : GenaiFinishReason → String
  | .stop => FinishReasonStop
  | .maxTokens => FinishReasonLength
  | .safety => FinishReasonContentFilter
  | _ => "unknown"

/-- One candidate of a `genai.GenerateContentResponse`: its text parts and
its finish reason (zero value `unspecified` when unset). -/
structure GenaiCandidate where
  parts : List String
  finishReason : GenaiFinishReason
deriving DecidableEq, Repr

/-- The loop body of `GeminiProvider.convertMessagesToParts` (`gemini.go`
lines 218-237): accumulate system content joined by `"\n"`; prepend it,
joined by `"\n\n"`, to the first user message and reset; pass assistant
content through; reject any other role. -/
def convertMessagesLoop (sysContent : String) (acc : List String) :
    List Message → Except String (String × List String)
  | [] => .ok (sysContent, acc)
  | msg :: rest =>
    if msg.role = RoleSystem then
      convertMessagesLoop
        (if sysContent = "" then msg.content
         else sysContent ++ "\n" ++ msg.content) acc rest
    else if msg.role = RoleUser then
      convertMessagesLoop
        (if sysContent = "" then sysContent else "")
        (acc ++ [if sysContent = "" then msg.content
                 else sysContent ++ "\n\n" ++ msg.content]) rest
    else if msg.role = RoleAssistant then
      convertMessagesLoop sysContent (acc ++ [msg.content]) rest
    else
      .error ("unsupported message role: " ++ msg.role)

/-- Method `GeminiProvider.convertMessagesToParts` (`gemini.go` lines 211-241):
run the loop from an empty builder and return the collected parts.
Trailing system content never folded into a user message is discarded,
as in the Go code. -/
def convertMessagesToParts (messages : List Message) :
    Except String (List String) :=
  match convertMessagesLoop "" [] messages with
  | .error e => .error e
  | .ok (_, parts) => .ok parts

/-- The per-candidate mapping of `GeminiProvider.transformResponse`
(`gemini.go` lines 251-278): concatenate the text parts into one
assistant message; attach a finish reason only when the vendor value is
non-zero. -/
def geminiTransformCandidate (i : Int) (cand : GenaiCandidate) : Choice :=
  { index := i
    message := some
      { role := RoleAssistant
        content := String.join cand.parts }
    delta := none
    finishReason :=
      if cand.finishReason = .unspecified then none
      else some (mapFinishReason cand.finishReason) }

/-- Method `GeminiProvider.transformResponse` (`gemini.go` lines 244-289) up to
the id/timestamp wrapper: fail on an empty candidate list, else map each
candidate to a choice. -/
def geminiTransformResponse (cands : List GenaiCandidate) :
    Except String (List Choice) :=
  if cands.length = 0 then .error "no candidates in response"
  else .ok (cands.enum.map fun p => geminiTransformCandidate (p.1 : Int) p.2)

/-- Method `GeminiProvider.Generate` (`gemini.go` lines 63-105) with the network
call abstracted: validate the request, convert the messages, then consume
the vendor outcome and transform its candidates.  Every pre-network
failure path of the Go code is a failure here for every vendor outcome. -/
def geminiGenerate (req : StandardRequest)
    (vendor : Except String (List GenaiCandidate)) :
    Except String (List Choice) :=
  match ValidateStandardRequest req with
  | .error e => .error ("invalid request: " ++ e)
  | .ok _ =>
    match convertMessagesToParts req.messages with
    | .error e => .error ("failed to convert messages: " ++ e)
    | .ok _ =>
      match vendor with
      | .error e => .error ("failed to generate content: " ++ e)
      | .ok cands =>
        match geminiTransformResponse cands with
        | .error e => .error ("failed to transform response: " ++ e)
        | .ok choices => .ok choices

/-- The pre-network phase of `GeminiProvider.StreamGenerate` (`gemini.go`
lines 108-136): validate the request and convert the messages before the
vendor stream is opened. -/
def geminiStreamSetup (req : StandardRequest) : Except String Unit :=
  match ValidateStandardRequest req with
  | .error e => .error ("invalid request: " ++ e)
  | .ok _ =>
    match convertMessagesToParts req.messages with
    | .error e => .error ("failed to convert messages: " ++ e)
    | .ok _ => .ok ()

/-- One choice of an OpenAI chat-completion response (vendor wire shape,
the fields read by `transformResponse`). -/
structure OpenAIRespChoice where
  index : Int
  messageRole : String
  messageContent : String
  messageName : String
  messageFunctionCall : Option FunctionCall
  finishReason : String
deriving DecidableEq, Repr

/-- The per-choice mapping of `OpenAIProvider.transformResponse`
(`gemini.go` concatenation, lines 758-798 of the combined file): copy the
message through, and attach the vendor's finish-reason string unchanged
when it is non-empty. -/
def openaiTransformChoice (c : OpenAIRespChoice) : Choice :=
  { index := c.index
    message := some
      { role := c.messageRole
        content := c.messageContent
        name := if c.messageName = "" then none else some c.messageName
        functionCall := c.messageFunctionCall }
    delta := none
    finishReason :=
      if c.finishReason = "" then none else some c.finishReason }

/-- One event written to the SSE client by the sender loop of
`RegisterRoutes`: a non-terminal data frame carrying one fragment
(`delta.content`, `finish_reason` null) or the terminal `data: [DONE]`
frame. -/
inductive SSEvent where
  | chunk (content : String)
  | doneMarker
deriving DecidableEq, Repr

/-- How the upstream `io.ReadCloser` terminates after its fragments:
`io.EOF` (normal completion) or a hard read error. -/
inductive StreamEnd where
  | eof
  | readError (msg : String)
deriving DecidableEq, Repr

/-- The joint state of the streaming relay of `RegisterRoutes`: the
reader goroutine, the capacity-8 `chunks` channel, the single-slot
`errCh` channel, the sender select loop, the caller's cancellation
context, and the events sent to the client.  `cancelAllowed` selects the
scenario: whether the environment may cancel the caller's context. -/
structure RelayState where
  /-- Fragments the upstream stream will still deliver to `rc.Read`. -/
  pending : List String
  /-- How the upstream stream terminates after `pending` is drained. -/
  streamEnd : StreamEnd
  /-- The reader goroutine has returned. -/
  readerDone : Bool
  /-- Buffered contents of the `chunks` channel (`make(chan []byte, 8)`). -/
  chunksBuf : List String
  /-- The deferred `close(chunks)` of the reader has run. -/
  chunksClosed : Bool
  /-- Contents of the `errCh` channel (`make(chan error, 1)`). -/
  errSlot : Option String
  /-- The sender loop has returned. -/
  senderDone : Bool
  /-- The caller's context has been canceled. -/
  canceled : Bool
  /-- Scenario parameter: the environment may cancel the caller. -/
  cancelAllowed : Bool
  /-- Events written to the client, in order. -/
  sent : List SSEvent
deriving DecidableEq, Repr

/-- Capacity of the hand-off channel: `make(chan []byte, 8)`. -/
def chanCapacity : Nat := 8

/-- The atomic steps of the relay: the reader's channel send and its
return (on EOF or error, running the deferred `close(chunks)`), the
environment canceling the caller, and the four `select` branches of the
sender loop. -/
inductive RelayLabel where
  | readerSend
  | readerFinish
  | envCancel
  | senderCancel
  | senderError
  | senderRecv
  | senderDoneMark
deriving DecidableEq, Repr, Fintype

/-- All seven relay labels. -/
def allRelayLabels : List RelayLabel :=
  [.readerSend, .readerFinish, .envCancel, .senderCancel, .senderError,
   .senderRecv, .senderDoneMark]

/-- One labelled step of the relay, `none` when the step is blocked or its
task has returned.  Blocking Go semantics embedded in the guards: the
reader's `chunks <- cp` is enabled only while the buffer holds fewer than
8 fragments; the sender's `select` branches are enabled exactly when the
corresponding channel operation is ready (`<-ctx.Done()` when canceled,
`<-errCh` when the slot is filled, `<-chunks` when a fragment is buffered,
the closed-channel receive `ok = false` when the channel is empty and
closed).  Go's `select` gives no priority among ready branches: any
enabled sender label may fire. -/
def relayStep : RelayLabel → RelayState → Option RelayState
  | .readerSend, s =>
    match s.pending with
    | [] => none
    | f :: rest =>
      if s.readerDone = false ∧ s.chunksBuf.length < chanCapacity then
        some { s with pending := rest, chunksBuf := s.chunksBuf ++ [f] }
      else none
  | .readerFinish, s =>
    if s.readerDone = false ∧ s.pending = [] then
      match s.streamEnd with
      | .eof => some { s with readerDone := true, chunksClosed := true }
      | .readError e =>
        some { s with readerDone := true, chunksClosed := true,
                      errSlot := some e }
    else none
  | .envCancel, s =>
    if s.cancelAllowed = true ∧ s.canceled = false then
      some { s with canceled := true }
    else none
  | .senderCancel, s =>
    if s.senderDone = false ∧ s.canceled = true then
      some { s with senderDone := true }
    else none
  | .senderError, s =>
    if s.senderDone = false then
      match s.errSlot with
      | some _ => some { s with errSlot := none, senderDone := true }
      | none => none
    else none
  | .senderRecv, s =>
    if s.senderDone = false then
      match s.chunksBuf with
      | b :: rest =>
        some { s with chunksBuf := rest, sent := s.sent ++ [.chunk b] }
      | [] => none
    else none
  | .senderDoneMark, s =>
    if s.senderDone = false ∧ s.chunksBuf = [] ∧ s.chunksClosed = true then
      some { s with senderDone := true, sent := s.sent ++ [.doneMarker] }
    else none

/-- A state `t` is reachable from `s` by zero or more relay steps. -/
def RelayReach (s t : RelayState) : Prop :=
  Relation.ReflTransGen (fun a b => ∃ l, relayStep l a = some b) s t

/-- Run an explicit schedule of labels, failing if any step is blocked. -/
def relayRun : List RelayLabel → RelayState → Option RelayState
  | [], s => some s
  | l :: ls, s =>
    match relayStep l s with
    | some t => relayRun ls t
    | none => none

/-- The initial relay state for a streaming call whose upstream delivers
`frags` and then terminates with `fin`; `allowCancel` selects whether the
caller may disconnect. -/
def relayInit (frags : List String) (fin : StreamEnd)
    (allowCancel : Bool) : RelayState :=
  { pending := frags
    streamEnd := fin
    readerDone := false
    chunksBuf := []
    chunksClosed := false
    errSlot := none
    senderDone := false
    canceled := false
    cancelAllowed := allowCancel
    sent := [] }

/-- Sum-of-work measure on relay states: every relay step strictly
decreases it, so every run of the relay terminates. -/
def relayMeasure (s : RelayState) : Nat :=
  3 * s.pending.length + s.chunksBuf.length +
    (if s.readerDone then 0 else 2) + (if s.senderDone then 0 else 2) +
    (if s.errSlot.isSome then 1 else 0) + (if s.canceled then 0 else 1)

/-- Predicate `P` holds of the state an optional step produced, vacuously for a
blocked step. -/
def stepSat (o : Option RelayState) (P : RelayState → Prop) : Prop :=
  match o with
  | none => True
  | some t => P t

/-- Decidable equality of `Except` outcomes, used to evaluate the embedded
operations on concrete inputs. -/
instance {ε α : Type} [DecidableEq ε] [DecidableEq α] :
    DecidableEq (Except ε α) := fun x y =>
  match x, y with
  | .error e, .error f =>
    decidable_of_iff (e = f) ⟨by rintro rfl; rfl, fun h => by injection h⟩
  | .error _, .ok _ => isFalse fun h => Except.noConfusion h
  | .ok _, .error _ => isFalse fun h => Except.noConfusion h
  | .ok a, .ok b =>
    decidable_of_iff (a = b) ⟨by rintro rfl; rfl, fun h => by injection h⟩

/-- Satisfaction `stepSat` is decidable, so finite relay scenarios can be checked by
evaluation. -/
instance (o : Option RelayState) (P : RelayState → Prop)
    [DecidablePred P] : Decidable (stepSat o P) :=
  match o with
  | none => isTrue trivial
  | some _ => inferInstanceAs (Decidable (P _))

/-- The streaming scenario of claim C2: upstream delivers `"He"` then
`"llo"` then `io.EOF`; the caller never disconnects. -/
def relayInitHello : RelayState := relayInit ["He", "llo"] .eof false

/-- The client-visible event sequence claim C2 expects: two non-terminal
chunks in arrival order, then the terminal marker. -/
def helloTarget : List SSEvent := [.chunk "He", .chunk "llo", .doneMarker]

/-- Every state the relay can reach from `relayInitHello`, found by
exhausting the interleavings of the reader and sender: the reader has
pushed 0-2 fragments (then closed the channel), the sender has consumed a
prefix of them, and at the very end the sender has emitted the terminal
marker. -/
def helloReachable : List RelayState :=
  [{ pending := ["He", "llo"], streamEnd := .eof, readerDone := false,
     chunksBuf := [], chunksClosed := false, errSlot := none,
     senderDone := false, canceled := false, cancelAllowed := false,
     sent := [] },
   { pending := ["llo"], streamEnd := .eof, readerDone := false,
     chunksBuf := ["He"], chunksClosed := false, errSlot := none,
     senderDone := false, canceled := false, cancelAllowed := false,
     sent := [] },
   { pending := ["llo"], streamEnd := .eof, readerDone := false,
     chunksBuf := [], chunksClosed := false, errSlot := none,
     senderDone := false, canceled := false, cancelAllowed := false,
     sent := [.chunk "He"] },
   { pending := [], streamEnd := .eof, readerDone := false,
     chunksBuf := ["He", "llo"], chunksClosed := false, errSlot := none,
     senderDone := false, canceled := false, cancelAllowed := false,
     sent := [] },
   { pending := [], streamEnd := .eof, readerDone := false,
     chunksBuf := ["llo"], chunksClosed := false, errSlot := none,
     senderDone := false, canceled := false, cancelAllowed := false,
     sent := [.chunk "He"] },
   { pending := [], streamEnd := .eof, readerDone := false,
     chunksBuf := [], chunksClosed := false, errSlot := none,
     senderDone := false, canceled := false, cancelAllowed := false,
     sent := [.chunk "He", .chunk "llo"] },
   { pending := [], streamEnd := .eof, readerDone := true,
     chunksBuf := ["He", "llo"], chunksClosed := true, errSlot := none,
     senderDone := false, canceled := false, cancelAllowed := false,
     sent := [] },
   { pending := [], streamEnd := .eof, readerDone := true,
     chunksBuf := ["llo"], chunksClosed := true, errSlot := none,
     senderDone := false, canceled := false, cancelAllowed := false,
     sent := [.chunk "He"] },
   { pending := [], streamEnd := .eof, readerDone := true,
     chunksBuf := [], chunksClosed := true, errSlot := none,
     senderDone := false, canceled := false, cancelAllowed := false,
     sent := [.chunk "He", .chunk "llo"] },
   { pending := [], streamEnd := .eof, readerDone := true,
     chunksBuf := [], chunksClosed := true, errSlot := none,
     senderDone := true, canceled := false, cancelAllowed := false,
     sent := [.chunk "He", .chunk "llo", .doneMarker] }]

/-- The error scenario of claim C1: upstream delivers `"x"` and then a
hard read error `"boom"`; the caller never disconnects. -/
def relayInitErrX : RelayState := relayInit ["x"] (.readError "boom") false

/-- The cancellation scenario of claim C3: upstream has nine fragments —
one more than the hand-off channel holds — and the caller may
disconnect. -/
def relayInitNine : RelayState :=
  relayInit ["1", "2", "3", "4", "5", "6", "7", "8", "9"] .eof true

/-! ## Validation (claim C4) -/

theorem validateMessage_ok_iff (i : Nat) (m : Message) :
    validateMessage i m = .ok () ↔ MessageOk m := by
  unfold validateMessage MessageOk
  split_ifs with h1 h2 h3
  · simp [h1, RoleSystem, RoleUser, RoleAssistant, RoleFunction]
  · simp [h2.1, h2.2]
  · simp only [true_iff]
    refine ⟨h3, ?_⟩
    rcases not_and_or.mp h2 with h | h
    · exact Or.inl h
    · exact Or.inr h
  · constructor
    · intro h; exact absurd h (by simp)
    · rintro ⟨hr, -⟩; exact absurd hr h3

theorem validateMessages_ok_iff (msgs : List Message) :
    ∀ i, validateMessages i msgs = .ok () ↔ ∀ m ∈ msgs, MessageOk m := by
  induction msgs with
  | nil => intro i; simp [validateMessages]
  | cons m rest ih =>
    intro i
    cases hv : validateMessage i m with
    | error e =>
      have hnm : ¬ MessageOk m := by
        intro hm
        have := (validateMessage_ok_iff i m).mpr hm
        rw [hv] at this
        exact Except.noConfusion this
      simp [validateMessages, hv, hnm]
    | ok u =>
      cases u
      have hm : MessageOk m := (validateMessage_ok_iff i m).mp hv
      simp [validateMessages, hv, ih (i + 1), hm]

theorem temperatureOutOfRange_eq_false_iff (t : Option Rat) :
    temperatureOutOfRange t = false ↔ ∀ v ∈ t, 0 ≤ v ∧ v ≤ 2 := by
  cases t <;> simp [temperatureOutOfRange, not_lt, and_comm]

theorem topPOutOfRange_eq_false_iff (p : Option Rat) :
    topPOutOfRange p = false ↔ ∀ v ∈ p, 0 ≤ v ∧ v ≤ 1 := by
  cases p <;> simp [topPOutOfRange, not_lt, and_comm]

theorem maxTokensInvalid_eq_false_iff (n : Option Int) :
    maxTokensInvalid n = false ↔ ∀ v ∈ n, 0 < v := by
  cases n <;> simp [maxTokensInvalid, not_le]

/-- C4: `validate(request)` fails exactly when one of the documented
conditions is violated — empty model; empty message list; some message
with an empty or unenumerated role, or empty content and no function
call; temperature outside [0, 2]; top-p outside [0, 1]; non-positive
max-tokens — and succeeds on every request satisfying all of them. -/
theorem validateStandardRequest_ok_iff (req : StandardRequest) :
    ValidateStandardRequest req = .ok () ↔ RequestOk req := by
  by_cases h1 : req.model = ""
  · simp [ValidateStandardRequest, RequestOk, h1]
  by_cases h2 : req.messages.length = 0
  · have hmsgs : req.messages = [] := List.length_eq_zero.mp h2
    simp [ValidateStandardRequest, RequestOk, h1, hmsgs]
  rw [ValidateStandardRequest, if_neg h1, if_neg h2]
  cases hv : validateMessages 0 req.messages with
  | error e =>
    have hnot : ¬ ∀ m ∈ req.messages, MessageOk m := by
      intro hall
      have := (validateMessages_ok_iff req.messages 0).mpr hall
      rw [hv] at this
      exact Except.noConfusion this
    constructor
    · intro h; exact absurd h (by simp)
    · rintro ⟨-, -, hall, -⟩; exact absurd hall hnot
  | ok u =>
    cases u
    have hall : ∀ m ∈ req.messages, MessageOk m :=
      (validateMessages_ok_iff req.messages 0).mp hv
    split_ifs with ht hp hn
    · constructor
      · intro h; exact absurd h (by simp)
      · rintro ⟨-, -, -, htemp, -⟩
        have := (temperatureOutOfRange_eq_false_iff req.temperature).mpr htemp
        rw [ht] at this
        exact Bool.noConfusion this
    · constructor
      · intro h; exact absurd h (by simp)
      · rintro ⟨-, -, -, -, htop, -⟩
        have := (topPOutOfRange_eq_false_iff req.topP).mpr htop
        rw [hp] at this
        exact Bool.noConfusion this
    · constructor
      · intro h; exact absurd h (by simp)
      · rintro ⟨-, -, -, -, -, hmax⟩
        have := (maxTokensInvalid_eq_false_iff req.maxTokens).mpr hmax
        rw [hn] at this
        exact Bool.noConfusion this
    · constructor
      · intro _
        refine ⟨h1, fun hm => h2 (by simp [hm]), hall, ?_, ?_, ?_⟩
        · exact (temperatureOutOfRange_eq_false_iff _).mp
            (Bool.not_eq_true _ ▸ ht)
        · exact (topPOutOfRange_eq_false_iff _).mp
            (Bool.not_eq_true _ ▸ hp)
        · exact (maxTokensInvalid_eq_false_iff _).mp
            (Bool.not_eq_true _ ▸ hn)
      · intro _; rfl

/-- A concrete request within all documented bounds that `validate`
accepts, instantiating `validateStandardRequest_ok_iff`. -/
theorem validateStandardRequest_ok_iff_witness :
    ValidateStandardRequest
      { model := "gpt-4"
        messages := [{ role := "user", content := "hello" }]
        stream := false
        maxTokens := some 5
        temperature := some 1
        topP := some 1 } = .ok () := by
  apply (validateStandardRequest_ok_iff _).mpr
  refine ⟨by decide, by decide, ?_, ?_, ?_, ?_⟩
  · intro m hm
    simp only [List.mem_singleton] at hm
    subst hm
    exact ⟨Or.inr (Or.inl rfl), Or.inl (by decide)⟩
  · intro v hv
    simp only [Option.mem_def, Option.some.injEq] at hv
    subst hv
    constructor <;> norm_num
  · intro v hv
    simp only [Option.mem_def, Option.some.injEq] at hv
    subst hv
    constructor <;> norm_num
  · intro v hv
    simp only [Option.mem_def, Option.some.injEq] at hv
    subst hv
    norm_num

/-! ## Routing (claims C5 and C6) -/

/-- C5: `Route` scans the ordered rule list; on the first rule whose
prefix matches the model it returns the named provider when registered
and fails with `providerNotConfigured` when not, never falling through to
the vendor-token heuristics; concretely, with rules
`[{"gpt-","openai"},{"gemini-","gemini"}]` and both providers registered,
`route("gpt-4")` is the OpenAI adapter and `route("gemini-pro")` the
Gemini adapter. -/
theorem route_first_match :
    (∀ (rules : List RouteRule) (registered : List String) (model : String)
        (r : RouteRule), firstMatchingRule rules model = some r →
      Route rules registered model =
        if r.provider ∈ registered then .ok r.provider
        else .error (.providerNotConfigured r.provider)) ∧
    Route [⟨"gpt-", "openai"⟩, ⟨"gemini-", "gemini"⟩] ["openai", "gemini"]
      "gpt-4" = .ok "openai" ∧
    Route [⟨"gpt-", "openai"⟩, ⟨"gemini-", "gemini"⟩] ["openai", "gemini"]
      "gemini-pro" = .ok "gemini" := by
  refine ⟨?_, by decide, by decide⟩
  intro rules
  induction rules with
  | nil => intro registered model r h; simp [firstMatchingRule] at h
  | cons a rest ih =>
    intro registered model r h
    by_cases hpm : strStartsWith model a.pat = true
    · simp only [firstMatchingRule, List.find?, hpm] at h
      injection h with h
      subst h
      simp [Route, hpm]
    · have hpm' : strStartsWith model a.pat = false :=
        Bool.not_eq_true _ ▸ hpm
      simp only [firstMatchingRule, List.find?, hpm'] at h
      simp [Route, hpm']
      exact ih registered model r h

/-- Instantiation of `route_first_match`: the first matching rule for
`"gpt-4"` names `"openai"`, which is registered, so routing returns it. -/
theorem route_first_match_witness :
    Route [⟨"gpt-", "openai"⟩, ⟨"gemini-", "gemini"⟩] ["openai", "gemini"]
      "gpt-4" =
      if "openai" ∈ ["openai", "gemini"] then Except.ok "openai"
      else .error (.providerNotConfigured "openai") :=
  route_first_match.1 [⟨"gpt-", "openai"⟩, ⟨"gemini-", "gemini"⟩]
    ["openai", "gemini"] "gpt-4" ⟨"gpt-", "openai"⟩ (by decide)

/-- C6: with no matching rule, routing falls back to vendor-token
heuristics: a model with a GPT-family token resolves to the registered
OpenAI adapter; a model with a Gemini-family token resolves to the
registered Gemini adapter (unless the OpenAI heuristic already claimed
it, which the Go if-order gives priority); with neither token the call
fails with `noProviderForModel`.  Concretely `route("gpt-3.5-turbo")`
resolves with no rules at all, and `route("unknown-model")` fails. -/
theorem route_fallback_heuristics :
    (∀ (registered : List String) (model : String),
      gptHint model = true → "openai" ∈ registered →
      GetProviderForModel registered model = .ok "openai") ∧
    (∀ (registered : List String) (model : String),
      geminiHint model = true → "gemini" ∈ registered →
      ¬(gptHint model = true ∧ "openai" ∈ registered) →
      GetProviderForModel registered model = .ok "gemini") ∧
    (∀ (registered : List String) (model : String),
      gptHint model = false → geminiHint model = false →
      GetProviderForModel registered model =
        .error (.noProviderForModel model)) ∧
    Route [] ["openai"] "gpt-3.5-turbo" = .ok "openai" ∧
    Route [⟨"gpt-", "openai"⟩, ⟨"gemini-", "gemini"⟩] ["openai", "gemini"]
      "unknown-model" = .error (.noProviderForModel "unknown-model") := by
  refine ⟨?_, ?_, ?_, by decide, by decide⟩
  · intro registered model hg hr
    rw [GetProviderForModel, if_pos ⟨hg, hr⟩]
  · intro registered model hgem hreg hno
    rw [GetProviderForModel, if_neg hno, if_pos ⟨hgem, hreg⟩]
  · intro registered model hg hgem
    rw [GetProviderForModel,
      if_neg (fun hc => absurd hc.1 (by simp [hg])),
      if_neg (fun hc => absurd hc.1 (by simp [hgem]))]

/-- Instantiation of `route_fallback_heuristics` at concrete models:
`"gpt-x"` resolves to OpenAI, `"gemini-x"` to Gemini, and `"zzz"` (no
vendor token) fails. -/
theorem route_fallback_heuristics_witness :
    GetProviderForModel ["openai"] "gpt-x" = .ok "openai" ∧
    GetProviderForModel ["gemini"] "gemini-x" = .ok "gemini" ∧
    GetProviderForModel ["openai", "gemini"] "zzz" =
      .error (.noProviderForModel "zzz") :=
  ⟨route_fallback_heuristics.1 ["openai"] "gpt-x" (by decide) (by decide),
   route_fallback_heuristics.2.1 ["gemini"] "gemini-x" (by decide)
     (by decide) (by decide),
   route_fallback_heuristics.2.2.1 ["openai", "gemini"] "zzz" (by decide)
     (by decide)⟩

/-! ## Capability merging (claim C9) -/

theorem dedupFirst_cons (x : String) (xs : List String) :
    dedupFirst (x :: xs) =
      x :: dedupFirst (xs.filter (fun y => decide (y ≠ x))) := by
  rw [dedupFirst.eq_def]

theorem foldl_addUnique_eq (l : List String) :
    ∀ acc, l.foldl addUnique acc =
      acc ++ dedupFirst (l.filter (fun y => decide (y ∉ acc))) := by
  induction l with
  | nil => intro acc; simp [dedupFirst]
  | cons x xs ih =>
    intro acc
    by_cases hx : x ∈ acc
    · have hstep : addUnique acc x = acc := if_pos hx
      have hfil : decide (x ∉ acc) = false := by simp [hx]
      simp only [List.foldl_cons, hstep, List.filter_cons, hfil]
      exact ih acc
    · have hstep : addUnique acc x = acc ++ [x] := if_neg hx
      have hfil : decide (x ∉ acc) = true := by simp [hx]
      simp only [List.foldl_cons, hstep, List.filter_cons, hfil, if_true]
      rw [ih (acc ++ [x])]
      have hpred : (xs.filter (fun y => decide (y ∉ acc ++ [x]))) =
          ((xs.filter (fun y => decide (y ∉ acc))).filter
            (fun y => decide (y ≠ x))) := by
        rw [List.filter_filter]
        apply List.filter_congr
        intro y _
        by_cases h1 : y ∈ acc <;> by_cases h2 : y = x <;>
          simp [h1, h2, List.mem_append]
      rw [hpred, List.append_assoc, List.singleton_append]
      congr 1
      rw [dedupFirst_cons]

theorem mergeStringSlices_eq_dedupFirst (l1 l2 : List String) :
    mergeStringSlices l1 l2 = dedupFirst (l1 ++ l2) := by
  unfold mergeStringSlices
  rw [← List.foldl_append, foldl_addUnique_eq, List.nil_append]
  congr 1
  apply List.filter_eq_self.mpr
  intro a _
  simp

theorem mem_dedupFirst (l : List String) : ∀ x, x ∈ dedupFirst l ↔ x ∈ l := by
  induction l using dedupFirst.induct with
  | case1 => intro x; simp [dedupFirst]
  | case2 a as ih =>
    intro x
    rw [dedupFirst_cons]
    by_cases hx : x = a
    · simp [hx]
    · simp only [List.mem_cons, hx, false_or]
      rw [ih x, List.mem_filter]
      simp [hx]

theorem nodup_dedupFirst (l : List String) : (dedupFirst l).Nodup := by
  induction l using dedupFirst.induct with
  | case1 => simp [dedupFirst]
  | case2 a as ih =>
    rw [dedupFirst_cons]
    refine List.nodup_cons.mpr ⟨?_, ih⟩
    intro hmem
    have := (mem_dedupFirst _ a).mp hmem
    rw [List.mem_filter] at this
    simp at this

/-- C9: `MergeCapabilities` combines two capability sets field-wise — the
three boolean capabilities by logical OR, the two numeric bounds by
maximum, and both string lists by union with duplicates removed keeping
the first occurrence (`dedupFirst`, written from the spec's words and
related to the code's `mergeStringSlices` by
`mergeStringSlices_eq_dedupFirst`); concretely, merging
`{streaming:true, functions:false, maxTokens:1000, models:[a,b]}` with
`{streaming:false, functions:true, maxTokens:2000, models:[b,c]}` yields
`{streaming:true, functions:true, maxTokens:2000, models:[a,b,c]}`. -/
theorem mergeCapabilities_fieldwise :
    (∀ c1 c2 : ProviderCapabilities,
      MergeCapabilities [c1, c2] =
        { supportsStreaming := c1.supportsStreaming || c2.supportsStreaming
          supportsFunctions := c1.supportsFunctions || c2.supportsFunctions
          supportsSystemRole :=
            c1.supportsSystemRole || c2.supportsSystemRole
          maxTokens := max c1.maxTokens c2.maxTokens
          maxContextLength := max c1.maxContextLength c2.maxContextLength
          supportedModels :=
            dedupFirst (c1.supportedModels ++ c2.supportedModels)
          supportedParameters :=
            dedupFirst (c1.supportedParameters ++ c2.supportedParameters) }) ∧
    (∀ (l : List String) (x : String), x ∈ dedupFirst l ↔ x ∈ l) ∧
    (∀ l : List String, (dedupFirst l).Nodup) ∧
    MergeCapabilities
      [{ supportsStreaming := true, supportsFunctions := false,
         supportsSystemRole := false, maxTokens := 1000,
         maxContextLength := 0, supportedModels := ["a", "b"],
         supportedParameters := [] },
       { supportsStreaming := false, supportsFunctions := true,
         supportsSystemRole := false, maxTokens := 2000,
         maxContextLength := 0, supportedModels := ["b", "c"],
         supportedParameters := [] }] =
      { supportsStreaming := true, supportsFunctions := true,
        supportsSystemRole := false, maxTokens := 2000,
        maxContextLength := 0, supportedModels := ["a", "b", "c"],
        supportedParameters := [] } := by
  refine ⟨?_, mem_dedupFirst, nodup_dedupFirst, by decide⟩
  intro c1 c2
  simp only [MergeCapabilities, List.foldl_cons, List.foldl_nil,
    mergeTwoCapabilities, mergeStringSlices_eq_dedupFirst,
    ProviderCapabilities.mk.injEq]
  refine ⟨trivial, trivial, trivial, ?_, ?_, trivial, trivial⟩ <;>
    · rw [max_def]; split_ifs <;> omega

/-! ## Gemini message conversion and finish reasons (claims C7, C8, C10) -/

/-- C7: the Gemini adapter, which lacks a native system role, prepends the
accumulated system content to the first user message only, joined by a
blank line: `[{system,s},{user,u1},{user,u2}]` becomes exactly the two
parts `s ++ "\n\n" ++ u1` and `u2`. -/
theorem gemini_system_folding (s u1 u2 : String) (hs : s ≠ "") :
    convertMessagesToParts
      [{ role := RoleSystem, content := s },
       { role := RoleUser, content := u1 },
       { role := RoleUser, content := u2 }] =
      .ok [s ++ "\n\n" ++ u1, u2] := by
  simp [convertMessagesToParts, convertMessagesLoop, RoleSystem, RoleUser,
    RoleAssistant, hs]

/-- Instantiation of `gemini_system_folding` at the spec's example:
`[{system,"S"},{user,"U1"},{user,"U2"}]` yields `["S\n\nU1", "U2"]`. -/
theorem gemini_system_folding_witness :
    convertMessagesToParts
      [{ role := RoleSystem, content := "S" },
       { role := RoleUser, content := "U1" },
       { role := RoleUser, content := "U2" }] =
      .ok ["S\n\nU1", "U2"] := by
  have h := gemini_system_folding "S" "U1" "U2" (by decide)
  rw [h]
  decide

/-- C8 fails on the code: Gemini's `mapFinishReason` sends
`FinishReasonRecitation` to the string `"unknown"`, which is outside the
shared vocabulary {stop, length, function_call, content_filter}, and the
OpenAI response transformation passes a vendor string such as
`"tool_calls"` through unchanged, also outside the vocabulary. -/
theorem finishReason_outside_vocabulary :
    mapFinishReason .recitation = "unknown" ∧
    "unknown" ∉ finishReasonVocabulary ∧
    (openaiTransformChoice
      { index := 0, messageRole := "assistant", messageContent := "hi",
        messageName := "", messageFunctionCall := none,
        finishReason := "tool_calls" }).finishReason = some "tool_calls" ∧
    "tool_calls" ∉ finishReasonVocabulary := by
  refine ⟨rfl, by decide, rfl, by decide⟩

/-- C8 amended: Gemini's `mapFinishReason` maps Stop, MaxTokens and
Safety into the shared vocabulary (stop, length, content_filter) and
every other vendor value to `"unknown"`; the OpenAI response
transformation copies the vendor's finish-reason string through
unchanged, omitting it only when empty — so the result lies in the
shared vocabulary only when the vendor's value does. -/
theorem finishReason_mapping_exact :
    mapFinishReason .stop = FinishReasonStop ∧
    mapFinishReason .maxTokens = FinishReasonLength ∧
    mapFinishReason .safety = FinishReasonContentFilter ∧
    (∀ r : GenaiFinishReason, r ≠ .stop → r ≠ .maxTokens → r ≠ .safety →
      mapFinishReason r = "unknown") ∧
    (∀ c : OpenAIRespChoice, c.finishReason ≠ "" →
      (openaiTransformChoice c).finishReason = some c.finishReason) ∧
    (∀ c : OpenAIRespChoice, c.finishReason = "" →
      (openaiTransformChoice c).finishReason = none) := by
  refine ⟨rfl, rfl, rfl, ?_, ?_, ?_⟩
  · intro r h1 h2 h3
    cases r with
    | unspecified => rfl
    | stop => exact absurd rfl h1
    | maxTokens => exact absurd rfl h2
    | safety => exact absurd rfl h3
    | recitation => rfl
    | other => rfl
  · intro c h
    simp [openaiTransformChoice, h]
  · intro c h
    simp [openaiTransformChoice, h]

/-- Instantiation of `finishReason_mapping_exact`: the Other finish
reason maps to `"unknown"`, and a vendor `"stop"` string passes through
as `some "stop"`. -/
theorem finishReason_mapping_exact_witness :
    mapFinishReason .other = "unknown" ∧
    (openaiTransformChoice
      { index := 0, messageRole := "assistant", messageContent := "ok",
        messageName := "", messageFunctionCall := none,
        finishReason := "stop" }).finishReason = some "stop" :=
  ⟨finishReason_mapping_exact.2.2.2.1 .other (by decide) (by decide)
     (by decide),
   finishReason_mapping_exact.2.2.2.2.1
     { index := 0, messageRole := "assistant", messageContent := "ok",
       messageName := "", messageFunctionCall := none,
       finishReason := "stop" } (by decide)⟩

theorem convertMessagesLoop_function_role_error (msgs : List Message) :
    ∀ sys acc, (∃ m ∈ msgs, m.role = RoleFunction) →
      ∃ e, convertMessagesLoop sys acc msgs = .error e := by
  induction msgs with
  | nil => rintro sys acc ⟨m, hm, -⟩; simp at hm
  | cons m rest ih =>
    rintro sys acc ⟨m', hm', hr⟩
    rcases List.mem_cons.mp hm' with rfl | hmem
    · refine ⟨"unsupported message role: " ++ m'.role, ?_⟩
      simp [convertMessagesLoop, hr, RoleSystem, RoleUser, RoleAssistant,
        RoleFunction]
    · by_cases hsys : m.role = RoleSystem
      · simp only [convertMessagesLoop, hsys, if_true, if_pos rfl]
        exact ih _ _ ⟨m', hmem, hr⟩
      · by_cases huser : m.role = RoleUser
        · simp only [convertMessagesLoop, hsys, huser, if_false, if_true,
            if_neg, if_pos rfl]
          exact ih _ _ ⟨m', hmem, hr⟩
        · by_cases hasst : m.role = RoleAssistant
          · simp only [convertMessagesLoop, hsys, huser, hasst]
            exact ih _ _ ⟨m', hmem, hr⟩
          · exact ⟨"unsupported message role: " ++ m.role,
              by simp [convertMessagesLoop, hsys, huser, hasst]⟩

/-- C10: every request containing a message with role `"function"` makes
the Gemini adapter's `Generate` fail for every vendor outcome (message
conversion rejects the role) and makes `StreamGenerate` fail before the
vendor stream is opened — yet such a request can pass standard
validation, which counts `"function"` among the four valid roles. -/
theorem gemini_rejects_function_role :
    (∀ (req : StandardRequest) (vendor : Except String (List GenaiCandidate)),
      (∃ m ∈ req.messages, m.role = RoleFunction) →
      ∃ e, geminiGenerate req vendor = .error e) ∧
    (∀ req : StandardRequest,
      (∃ m ∈ req.messages, m.role = RoleFunction) →
      ∃ e, geminiStreamSetup req = .error e) ∧
    (∃ req : StandardRequest,
      ValidateStandardRequest req = .ok () ∧
      ∃ m ∈ req.messages, m.role = RoleFunction) := by
  refine ⟨?_, ?_, ?_⟩
  · intro req vendor hfn
    cases hv : ValidateStandardRequest req with
    | error e => exact ⟨"invalid request: " ++ e, by simp [geminiGenerate, hv]⟩
    | ok u =>
      cases u
      obtain ⟨e, he⟩ := convertMessagesLoop_function_role_error
        req.messages "" [] hfn
      exact ⟨"failed to convert messages: " ++ e,
        by simp [geminiGenerate, hv, convertMessagesToParts, he]⟩
  · intro req hfn
    cases hv : ValidateStandardRequest req with
    | error e =>
      exact ⟨"invalid request: " ++ e, by simp [geminiStreamSetup, hv]⟩
    | ok u =>
      cases u
      obtain ⟨e, he⟩ := convertMessagesLoop_function_role_error
        req.messages "" [] hfn
      exact ⟨"failed to convert messages: " ++ e,
        by simp [geminiStreamSetup, hv, convertMessagesToParts, he]⟩
  · refine ⟨({ model := "gemini-pro"
               messages := [{ role := "user", content := "hi" },
                 { role := "function", content := "42", name := some "f" }] } :
          StandardRequest),
      by decide, ?_⟩
    exact ⟨({ role := "function", content := "42", name := some "f" } :
      Message), by simp, rfl⟩

/-- Instantiation of `gemini_rejects_function_role` at a concrete valid
request holding a function-role message: `Generate` and `StreamGenerate`
both fail. -/
theorem gemini_rejects_function_role_witness :
    (∃ e, geminiGenerate
      { model := "gemini-pro",
        messages := [{ role := "user", content := "hi" },
          { role := "function", content := "42", name := some "f" }] }
      (.ok []) = .error e) ∧
    (∃ e, geminiStreamSetup
      { model := "gemini-pro",
        messages := [{ role := "user", content := "hi" },
          { role := "function", content := "42", name := some "f" }] } =
      .error e) :=
  ⟨gemini_rejects_function_role.1 _ (.ok [])
    ⟨({ role := "function", content := "42", name := some "f" } : Message),
      by simp, rfl⟩,
   gemini_rejects_function_role.2.1 _
    ⟨({ role := "function", content := "42", name := some "f" } : Message),
      by simp, rfl⟩⟩

/-! ## Streaming relay (claims C1, C2, C3) -/

theorem relayRun_reach (ls : List RelayLabel) :
    ∀ s t : RelayState, relayRun ls s = some t → RelayReach s t := by
  induction ls with
  | nil =>
    intro s t h
    simp [relayRun] at h
    subst h
    exact Relation.ReflTransGen.refl
  | cons l ls ih =>
    intro s t h
    cases hstep : relayStep l s with
    | none => simp [relayRun, hstep] at h
    | some u =>
      simp only [relayRun, hstep] at h
      exact Relation.ReflTransGen.head ⟨l, hstep⟩ (ih u t h)

theorem relayReach_closed (S : List RelayState) (init : RelayState)
    (h0 : init ∈ S)
    (hcl : ∀ s ∈ S, ∀ l : RelayLabel, stepSat (relayStep l s) (· ∈ S)) :
    ∀ t, RelayReach init t → t ∈ S := by
  intro t h
  induction h with
  | refl => exact h0
  | tail _ hbc ih =>
    obtain ⟨l, hl⟩ := hbc
    have hs := hcl _ ih l
    rw [hl] at hs
    exact hs

/-- C2: for an upstream producing `"He"` then `"llo"` then end-of-stream
with no error and no cancellation, every reachable relay state has sent a
prefix of [chunk "He", chunk "llo", DONE]; when the sender loop has
returned the client has received exactly that sequence (two non-terminal
chunks in arrival order, one terminal marker, nothing after it); until
then some step is always enabled, and every step decreases the
termination measure, so every maximal run ends with exactly that
sequence; and such a complete run exists. -/
theorem relay_hello_stream_output :
    (∀ s, RelayReach relayInitHello s →
      s.sent <+: helloTarget ∧
      (s.senderDone = true → s.sent = helloTarget) ∧
      (s.senderDone = false → ∃ l, (relayStep l s).isSome = true) ∧
      (∀ l, stepSat (relayStep l s)
        (fun t => relayMeasure t < relayMeasure s))) ∧
    (∃ s, RelayReach relayInitHello s ∧ s.senderDone = true ∧
      s.sent = helloTarget) := by
  have hmem := relayReach_closed helloReachable relayInitHello (by decide)
    (by decide)
  constructor
  · have hP : ∀ s ∈ helloReachable,
        s.sent <+: helloTarget ∧
        (s.senderDone = true → s.sent = helloTarget) ∧
        (s.senderDone = false → ∃ l, (relayStep l s).isSome = true) ∧
        (∀ l, stepSat (relayStep l s)
          (fun t => relayMeasure t < relayMeasure s)) := by decide
    exact fun s hs => hP s (hmem s hs)
  · refine ⟨{ pending := [], streamEnd := .eof, readerDone := true,
              chunksBuf := [], chunksClosed := true, errSlot := none,
              senderDone := true, canceled := false, cancelAllowed := false,
              sent := [.chunk "He", .chunk "llo", .doneMarker] },
      relayRun_reach
        [.readerSend, .readerSend, .readerFinish, .senderRecv, .senderRecv,
         .senderDoneMark] relayInitHello _ (by decide), rfl, by decide⟩

/-- Instantiation of `relay_hello_stream_output` at the initial state of
the `["He","llo"]` scenario (reachable in zero steps). -/
theorem relay_hello_stream_output_witness :
    relayInitHello.sent <+: helloTarget ∧
    (relayInitHello.senderDone = true →
      relayInitHello.sent = helloTarget) ∧
    (relayInitHello.senderDone = false →
      ∃ l, (relayStep l relayInitHello).isSome = true) ∧
    (∀ l, stepSat (relayStep l relayInitHello)
      (fun t => relayMeasure t < relayMeasure relayInitHello)) :=
  relay_hello_stream_output.1 relayInitHello Relation.ReflTransGen.refl

/-- C1 fails on the code: Go's `select` has no priority among ready
cases, so after the reader posts a read error and closes the hand-off
channel, the sender may take the closed-channel branch and emit the
terminal `data: [DONE]` marker even though a read error was posted and
the upstream did not end normally — here on the concrete stream that
delivers `"x"` and then fails with `"boom"`. -/
theorem relay_doneMarker_after_readError :
    ∃ s, RelayReach relayInitErrX s ∧ s.streamEnd = .readError "boom" ∧
      s.errSlot = some "boom" ∧ s.senderDone = true ∧
      s.sent = [.chunk "x", .doneMarker] := by
  refine ⟨{ pending := [], streamEnd := .readError "boom",
            readerDone := true, chunksBuf := [], chunksClosed := true,
            errSlot := some "boom", senderDone := true, canceled := false,
            cancelAllowed := false, sent := [.chunk "x", .doneMarker] },
    relayRun_reach [.readerSend, .senderRecv, .readerFinish, .senderDoneMark]
      relayInitErrX _ (by decide), rfl, rfl, rfl, rfl⟩

/-- C1 amended: the sender loop selects nondeterministically among the
ready events of its `select` — no branch has priority — and each selected
branch behaves as documented: caller cancellation stops the loop
immediately without flushing buffered fragments; a posted read error
stops it without emitting anything; an available fragment is emitted as
one non-terminal chunk in arrival order; the closed-channel event emits
exactly one terminal marker and stops; and after the sender stops nothing
further is ever emitted.  (The terminal marker may follow a posted read
error when the closed-channel branch is selected first, per
`relay_doneMarker_after_readError`.) -/
theorem relay_sender_branch_semantics :
    (∀ s t, relayStep .senderCancel s = some t →
      s.canceled = true ∧ t.sent = s.sent ∧ t.senderDone = true) ∧
    (∀ s t, relayStep .senderError s = some t →
      s.errSlot.isSome = true ∧ t.sent = s.sent ∧ t.errSlot = none ∧
      t.senderDone = true) ∧
    (∀ s t, relayStep .senderRecv s = some t →
      ∃ b rest, s.chunksBuf = b :: rest ∧ t.chunksBuf = rest ∧
        t.sent = s.sent ++ [.chunk b] ∧ t.senderDone = false) ∧
    (∀ s t, relayStep .senderDoneMark s = some t →
      s.chunksBuf = [] ∧ s.chunksClosed = true ∧
      t.sent = s.sent ++ [.doneMarker] ∧ t.senderDone = true) ∧
    (∀ (l : RelayLabel) (s t : RelayState), s.senderDone = true →
      relayStep l s = some t → t.sent = s.sent ∧ t.senderDone = true) := by
  refine ⟨?_, ?_, ?_, ?_, ?_⟩
  · intro s t h
    simp only [relayStep] at h
    split_ifs at h with hc
    injection h with h
    subst h
    exact ⟨hc.2, rfl, rfl⟩
  · intro s t h
    simp only [relayStep] at h
    split_ifs at h with hs
    cases herr : s.errSlot with
    | none => rw [herr] at h; exact absurd h (by simp)
    | some e =>
      rw [herr] at h
      injection h with h
      subst h
      exact ⟨rfl, rfl, rfl, rfl⟩
  · intro s t h
    simp only [relayStep] at h
    split_ifs at h with hs
    cases hbuf : s.chunksBuf with
    | nil => rw [hbuf] at h; exact absurd h (by simp)
    | cons b rest =>
      rw [hbuf] at h
      injection h with h
      subst h
      exact ⟨b, rest, rfl, rfl, rfl, hs⟩
  · intro s t h
    simp only [relayStep] at h
    split_ifs at h with hc
    injection h with h
    subst h
    exact ⟨hc.2.1, hc.2.2, rfl, rfl⟩
  · intro l s t hdone h
    cases l with
    | readerSend =>
      simp only [relayStep] at h
      cases hp : s.pending with
      | nil => rw [hp] at h; exact absurd h (by simp)
      | cons f rest =>
        rw [hp] at h
        split_ifs at h with hc
        injection h with h
        subst h
        exact ⟨rfl, hdone⟩
    | readerFinish =>
      simp only [relayStep] at h
      split_ifs at h with hc
      cases hse : s.streamEnd with
      | eof =>
        rw [hse] at h
        injection h with h
        subst h
        exact ⟨rfl, hdone⟩
      | readError e =>
        rw [hse] at h
        injection h with h
        subst h
        exact ⟨rfl, hdone⟩
    | envCancel =>
      simp only [relayStep] at h
      split_ifs at h with hc
      injection h with h
      subst h
      exact ⟨rfl, hdone⟩
    | senderCancel =>
      simp only [relayStep] at h
      split_ifs at h with hc
      rw [hc.1] at hdone; exact Bool.noConfusion hdone
    | senderError =>
      simp only [relayStep] at h
      split_ifs at h with hc
      rw [hc] at hdone; exact Bool.noConfusion hdone
    | senderRecv =>
      simp only [relayStep] at h
      split_ifs at h with hc
      rw [hc] at hdone; exact Bool.noConfusion hdone
    | senderDoneMark =>
      simp only [relayStep] at h
      split_ifs at h with hc
      rw [hc.1] at hdone; exact Bool.noConfusion hdone

/-- Instantiation of `relay_sender_branch_semantics` at concrete states:
one step of each sender branch, and one reader step after the sender has
returned. -/
theorem relay_sender_branch_semantics_witness :
    (({ pending := [], streamEnd := .eof, readerDone := false,
        chunksBuf := ["a"], chunksClosed := false, errSlot := none,
        senderDone := false, canceled := true, cancelAllowed := true,
        sent := [] } : RelayState).canceled = true ∧
      ([] : List SSEvent) = [] ∧ true = true) ∧
    (∃ b rest, (["a"] : List String) = b :: rest ∧
      ([] : List String) = rest ∧
      ([SSEvent.chunk "a"] : List SSEvent) = [] ++ [.chunk b] ∧
      false = false) ∧
    (([] : List String) = [] ∧ true = true ∧
      ([SSEvent.doneMarker] : List SSEvent) = [] ++ [.doneMarker] ∧
      true = true) := by
  refine ⟨?_, ?_, ?_⟩
  · exact relay_sender_branch_semantics.1
      { pending := [], streamEnd := .eof, readerDone := false,
        chunksBuf := ["a"], chunksClosed := false, errSlot := none,
        senderDone := false, canceled := true, cancelAllowed := true,
        sent := [] }
      { pending := [], streamEnd := .eof, readerDone := false,
        chunksBuf := ["a"], chunksClosed := false, errSlot := none,
        senderDone := true, canceled := true, cancelAllowed := true,
        sent := [] } (by decide)
  · exact relay_sender_branch_semantics.2.2.1
      { pending := [], streamEnd := .eof, readerDone := false,
        chunksBuf := ["a"], chunksClosed := false, errSlot := none,
        senderDone := false, canceled := false, cancelAllowed := false,
        sent := [] }
      { pending := [], streamEnd := .eof, readerDone := false,
        chunksBuf := [], chunksClosed := false, errSlot := none,
        senderDone := false, canceled := false, cancelAllowed := false,
        sent := [.chunk "a"] } (by decide)
  · exact relay_sender_branch_semantics.2.2.2.1
      { pending := [], streamEnd := .eof, readerDone := true,
        chunksBuf := [], chunksClosed := true, errSlot := none,
        senderDone := false, canceled := false, cancelAllowed := false,
        sent := [] }
      { pending := [], streamEnd := .eof, readerDone := true,
        chunksBuf := [], chunksClosed := true, errSlot := none,
        senderDone := true, canceled := false, cancelAllowed := false,
        sent := [.doneMarker] } (by decide)

/-- C3 fails on the code (the spec's guarantee is the intent, the code a
slip): with nine upstream fragments and a caller that cancels before the
sender consumes anything, the relay reaches a state where the sender has
returned but the reader goroutine still holds an unread fragment, the
hand-off channel is full, and no step is enabled for it ever again — the
reader blocks forever on `chunks <- cp` and leaks. -/
theorem relay_reader_leak_on_cancel :
    ∃ s, RelayReach relayInitNine s ∧ s.senderDone = true ∧
      s.readerDone = false ∧ s.pending ≠ [] ∧
      s.chunksBuf.length = chanCapacity ∧
      ∀ l, relayStep l s = none := by
  refine ⟨{ pending := ["9"], streamEnd := .eof, readerDone := false,
            chunksBuf := ["1", "2", "3", "4", "5", "6", "7", "8"],
            chunksClosed := false, errSlot := none, senderDone := true,
            canceled := true, cancelAllowed := true, sent := [] },
    relayRun_reach
      [.envCancel, .readerSend, .readerSend, .readerSend, .readerSend,
       .readerSend, .readerSend, .readerSend, .readerSend, .senderCancel]
      relayInitNine _ (by decide), rfl, rfl, by decide, by decide,
    by decide⟩

theorem dedupFirst_nil : dedupFirst [] = [] := by
  rw [dedupFirst.eq_def]

/-- Instantiation of `mergeCapabilities_fieldwise` at two empty
capability sets: the merge is the empty capability set. -/
theorem mergeCapabilities_fieldwise_witness :
    MergeCapabilities [emptyCapabilities, emptyCapabilities] =
      emptyCapabilities := by
  rw [mergeCapabilities_fieldwise.1 emptyCapabilities emptyCapabilities]
  simp [emptyCapabilities, dedupFirst_nil]
